import Mathlib

/-!
Shallow embedding of the generation-and-normalization pipeline of
`src/agent.py` (class `QuestionAgent`), together with the string utilities
it relies on.  Python text is modelled as `List Char`; the Python `json`
module is modelled by an executable fueled parser `loads`; exceptions are
modelled by the explicit error type `PyErr` and `Except`.
-/

set_option maxRecDepth 10000

/-- Python strings are modelled as lists of characters. -/
abbrev Str := List Char

/-- The kinds of Python exception that can arise inside the agent module:
`AIUnavailableError`, `ValueError`, `json.JSONDecodeError`, a failure of the
underlying model call, and `AttributeError`. -/
inductive PyErr where
  | aiUnavailable (msg : String)
  | valueError (msg : String)
  | jsonError (msg : String)
  | modelError (msg : String)
  | attributeError (msg : String)
deriving Repr, DecidableEq

/-- The text used when a Python exception is interpolated into an f-string. -/
def PyErr.message : PyErr → String
  | .aiUnavailable m => m
  | .valueError m => m
  | .jsonError m => m
  | .modelError m => m
  | .attributeError m => m

/-- Boolean test for the error case of an `Except` result. -/
def isErrB {α : Type} : Except PyErr α → Bool
  | .error _ => true
  | .ok _ => false

/-- Boolean test for the success case of an `Except` result. -/
def isOkB {α : Type} : Except PyErr α → Bool
  | .error _ => false
  | .ok _ => true

/-- JSON values as produced by Python's `json.loads` (numbers restricted to
integers, the only numeric form the pipeline's logic inspects). -/
inductive Json where
  | null
  | bool (b : Bool)
  | num (n : Int)
  | str (s : Str)
  | arr (elems : List Json)
  | obj (fields : List (Str × Json))
deriving Repr

/-- Python `dict.get`: with insertion overwriting, the binding that survives
for a key is the last one, so lookup returns the last matching value. -/
def dictGet (fields : List (Str × Json)) (k : Str) : Option Json :=
  fields.foldl (fun acc p => if p.1 = k then some p.2 else acc) none

/-- Python `in` for dict keys. -/
def hasKey (fields : List (Str × Json)) (k : Str) : Bool :=
  fields.any (fun p => decide (p.1 = k))

/-- Python truthiness of a JSON value. -/
def pyFalsy : Json → Bool
  | .null => true
  | .bool b => !b
  | .num n => decide (n = 0)
  | .str s => s.isEmpty
  | .arr xs => xs.isEmpty
  | .obj fs => fs.isEmpty

/-- The whitespace characters stripped by Python `str.strip()`
(restricted to the ASCII ones the pipeline can meet). -/
def isPyWs (c : Char) : Bool :=
  c = ' ' ∨ c = '\t' ∨ c = '\n' ∨ c = '\r' ∨ c = '\x0b' ∨ c = '\x0c'

/-- Python `str.strip()`. -/
def pyStrip (cs : Str) : Str :=
  ((cs.dropWhile isPyWs).reverse.dropWhile isPyWs).reverse

/-- Index of the first occurrence of a character (Python `str.find` for a
single-character needle, with `none` for `-1`). -/
def findChar (c : Char) : Str → Option Nat
  | [] => none
  | x :: xs => if x = c then some 0 else (findChar c xs).map (· + 1)

/-- Index of the last occurrence of a substring (Python `str.rfind`, with
`none` for `-1`). -/
def rfindSub (pat : Str) : Str → Option Nat
  | [] => if pat.isPrefixOf ([] : Str) then some 0 else none
  | c :: cs =>
      match rfindSub pat cs with
      | some i => some (i + 1)
      | none => if pat.isPrefixOf (c :: cs) then some 0 else none

/-- Index of the last occurrence of a character. -/
def rfindChar (c : Char) : Str → Option Nat
  | [] => none
  | x :: xs =>
      match rfindChar c xs with
      | some j => some (j + 1)
      | none => if x = c then some 0 else none

/-- JSON whitespace as skipped by Python's `json` scanner. -/
def isJsonWs (c : Char) : Bool :=
  c = ' ' ∨ c = '\t' ∨ c = '\n' ∨ c = '\r'

/-- Skip JSON whitespace. -/
def skipWs : Str → Str
  | [] => []
  | c :: cs => if isJsonWs c then skipWs cs else c :: cs

/-- Decode one string-escape character (the escapes the pipeline can meet):
the self-representing ones (quote, backslash, slash) and the control
shorthands. -/
def escChar (e : Char) : Option Char :=
  if e = 'n' then some '\n'
  else if e = 't' then some '\t'
  else if e = 'r' then some '\r'
  else if e = 'b' then some '\x08'
  else if e = 'f' then some '\x0c'
  else if e = '"' ∨ e = '\\' ∨ e = '/' then some e
  else none

/-- Parse the remainder of a JSON string literal, after the opening quote;
returns the decoded contents and the rest of the input. -/
def parseJString : Str → Option (Str × Str)
  | [] => none
  | '"' :: rest => some ([], rest)
  | '\\' :: rest =>
      match rest with
      | [] => none
      | e :: rest2 =>
          match escChar e with
          | none => none
          | some c =>
              match parseJString rest2 with
              | none => none
              | some (s, r) => some (c :: s, r)
  | c :: rest =>
      match parseJString rest with
      | none => none
      | some (s, r) => some (c :: s, r)

/-- Take a maximal run of decimal digits. -/
def takeDigits : Str → (Str × Str)
  | [] => ([], [])
  | c :: cs =>
      if c.isDigit then
        let (d, r) := takeDigits cs
        (c :: d, r)
      else ([], c :: cs)

/-- Numeric value of a digit run. -/
def digitsVal (ds : Str) : Nat :=
  ds.foldl (fun a c => a * 10 + (c.toNat - 48)) 0

mutual

/-- Fueled parser for one JSON value (model of Python's `json` scanner). -/
def parseVal : Nat → Str → Option (Json × Str)
  | 0, _ => none
  | fuel + 1, cs =>
      match skipWs cs with
      | 'n' :: 'u' :: 'l' :: 'l' :: r => some (.null, r)
      | 't' :: 'r' :: 'u' :: 'e' :: r => some (.bool true, r)
      | 'f' :: 'a' :: 'l' :: 's' :: 'e' :: r => some (.bool false, r)
      | '"' :: r =>
          match parseJString r with
          | none => none
          | some (s, r2) => some (.str s, r2)
      | '{' :: r => parseObjBody fuel r
      | '[' :: r => parseArrBody fuel r
      | '-' :: r =>
          (match takeDigits r with
           | ([], _) => none
           | (ds, r2) => some (.num (-(digitsVal ds : Int)), r2))
      | c :: r =>
          if c.isDigit then
            (match takeDigits (c :: r) with
             | (ds, r2) => some (.num (digitsVal ds), r2))
          else none
      | [] => none

/-- Parse the body of a JSON object, after the opening brace. -/
def parseObjBody : Nat → Str → Option (Json × Str)
  | 0, _ => none
  | fuel + 1, cs =>
      match skipWs cs with
      | '}' :: r => some (.obj [], r)
      | rest =>
          match parseMembers fuel rest with
          | none => none
          | some (ms, r) => some (.obj ms, r)

/-- Parse one or more `"key": value` members followed by the closing brace. -/
def parseMembers : Nat → Str → Option (List (Str × Json) × Str)
  | 0, _ => none
  | fuel + 1, cs =>
      match skipWs cs with
      | '"' :: r =>
          match parseJString r with
          | none => none
          | some (k, r2) =>
              match skipWs r2 with
              | ':' :: r3 =>
                  match parseVal fuel r3 with
                  | none => none
                  | some (v, r4) =>
                      match skipWs r4 with
                      | ',' :: r5 =>
                          (match parseMembers fuel r5 with
                           | none => none
                           | some (ms, r6) => some ((k, v) :: ms, r6))
                      | '}' :: r5 => some ([(k, v)], r5)
                      | _ => none
              | _ => none
      | _ => none

/-- Parse the body of a JSON array, after the opening bracket. -/
def parseArrBody : Nat → Str → Option (Json × Str)
  | 0, _ => none
  | fuel + 1, cs =>
      match skipWs cs with
      | ']' :: r => some (.arr [], r)
      | rest =>
          match parseItems fuel rest with
          | none => none
          | some (xs, r) => some (.arr xs, r)

/-- Parse one or more array items followed by the closing bracket. -/
def parseItems : Nat → Str → Option (List Json × Str)
  | 0, _ => none
  | fuel + 1, cs =>
      match parseVal fuel cs with
      | none => none
      | some (v, r) =>
          match skipWs r with
          | ',' :: r2 =>
              (match parseItems fuel r2 with
               | none => none
               | some (xs, r3) => some (v :: xs, r3))
          | ']' :: r2 => some ([v], r2)
          | _ => none

end

/-- Model of Python `json.loads`: parse one document and require that only
whitespace follows (Python raises `Extra data` otherwise). -/
def loads (cs : Str) : Option Json :=
  match parseVal (cs.length + 1) cs with
  | some (j, rest) => if skipWs rest = [] then some j else none
  | none => none

/-! ## The cleaning stage (src/agent.py lines 77-86) -/

/-- The backtick character. -/
def btick : Char := Char.ofNat 96

/-- The three-backtick code-fence marker. -/
def fenceMark : Str := [btick, btick, btick]

/-- Lines 77-86 of `generate_qa`: strip the text, and when it starts with a
code fence take the slice from just after the first newline up to the last
fence marker (Python `find`/`rfind` return `-1` when absent; `-1 + 1 = 0`
fails the `end > start > 0` guard exactly as mapping the miss to `0` does). -/
def cleanStage (content : Str) : Str :=
  let cleaned := pyStrip content
  if fenceMark.isPrefixOf cleaned then
    let start : Nat := match findChar '\n' cleaned with | some i => i + 1 | none => 0
    let stop : Nat := match rfindSub fenceMark cleaned with | some j => j | none => 0
    if 0 < start ∧ start < stop then
      pyStrip ((cleaned.drop start).take (stop - start))
    else cleaned
  else cleaned

/-! ## The extraction stage (src/agent.py lines 88-101) -/

/-- Model of `re.search` for the greedy patterns used on lines 94-95
(an opening character, any characters, a closing character): leftmost
starting position that admits a match, greedy to the last closing
character. -/
def reSpan (o c : Char) : Str → Option Str
  | [] => none
  | x :: xs =>
      if x = o then
        match rfindChar c xs with
        | some j => some (x :: xs.take (j + 1))
        | none => reSpan o c xs
      else reSpan o c xs

/-- The `"basic"` key. -/
def keyBasic : Str := "basic".data

/-- The `"intermediate"` key. -/
def keyIntermediate : Str := "intermediate".data

/-- The `"expert"` key. -/
def keyExpert : Str := "expert".data

/-- The `"question"` key. -/
def keyQuestion : Str := "question".data

/-- The `"answer"` key. -/
def keyAnswer : Str := "answer".data

/-- Lines 88-101 of `generate_qa`: try a direct parse; on failure search for
the object pattern and, separately, the array pattern, prefer the object
match, parse whichever is found (wrapping a found array as the `basic`
tier), and re-raise the parse failure when neither is found. -/
def parseStage (cleaned : Str) : Except PyErr Json :=
  match loads cleaned with
  | some qa => .ok qa
  | none =>
      match reSpan '{' '}' cleaned with
      | some t =>
          match loads t with
          | some qa => .ok qa
          | none => .error (.jsonError "extracted object span does not parse")
      | none =>
          match reSpan '[' ']' cleaned with
          | some t =>
              match loads t with
              | some qa => .ok (Json.obj [(keyBasic, qa)])
              | none => .error (.jsonError "extracted array span does not parse")
          | none => .error (.jsonError "no JSON document in model output")

/-! ## The shape-normalization stage (src/agent.py lines 103-117) -/

/-- The three difficulty tiers, in the insertion order of the dict literal
on line 104. -/
structure Levels where
  basic : List Json
  intermediate : List Json
  expert : List Json
deriving Repr

/-- The entry filter of lines 109 and 111: keep a tier entry only when it is
a dict containing both the `question` and the `answer` key. -/
def isQAEntry : Json → Bool
  | .obj fields => hasKey fields keyQuestion && hasKey fields keyAnswer
  | _ => false

/-- The list comprehension of lines 109 and 111. -/
def filterEntries (v : List Json) : List Json :=
  v.filter isQAEntry

/-- Lines 106-109: the value a tier gets from a parsed dict: the filtered
entries when the key holds a list, and the initial empty list otherwise. -/
def tierOf (fields : List (Str × Json)) (k : Str) : List Json :=
  match dictGet fields k with
  | some (.arr v) => filterEntries v
  | _ => []

/-- Lines 115-117: fail when every tier is empty (`not any(levels.values())`). -/
def checkAny (lv : Levels) : Except PyErr Levels :=
  if lv.basic.isEmpty && lv.intermediate.isEmpty && lv.expert.isEmpty then
    .error (.valueError "no valid question-answer objects from Gemini")
  else .ok lv

/-- Lines 103-117 of `generate_qa`: normalize the parsed value to the dict
of levels, filtering each tier, mapping a bare list into the `basic` tier,
rejecting any other shape, and requiring at least one non-empty tier. -/
def normalizeShape (qa : Json) : Except PyErr Levels :=
  match qa with
  | .obj fields =>
      checkAny ⟨tierOf fields keyBasic, tierOf fields keyIntermediate, tierOf fields keyExpert⟩
  | .arr xs => checkAny ⟨filterEntries xs, [], []⟩
  | _ => .error (.valueError "invalid JSON shape from Gemini")

/-! ## generate_qa (src/agent.py lines 29-122) -/

/-- The environment a call runs in: the configured credential
(`settings.gemini_api_key`, which `config.py` loads as the environment
value or `None`) and the outcome of the single outbound model call,
delivered as text fragments (`resp.text` or the candidate parts). -/
structure Env where
  geminiApiKey : Option String
  modelResult : Except String (List Str)

/-- Python truthiness of the optional credential (`not settings.gemini_api_key`
is the negation of this). -/
def pyTruthyKey : Option String → Bool
  | none => false
  | some s => !s.isEmpty

/-- Join text fragments with newlines (line 74). -/
def joinNl : List Str → Str
  | [] => []
  | [t] => t
  | t :: ts => t ++ '\n' :: joinNl ts

/-- Lines 63-74: aggregate the fragments, dropping empty ones, join with
newlines, and strip. -/
def aggregate (frags : List Str) : Str :=
  pyStrip (joinNl (frags.filter (fun t => !t.isEmpty)))

/-- The body of the `try` block of `generate_qa` (lines 40-118): call the
model, aggregate, clean, parse/extract, normalize. -/
def generateQaBody (env : Env) : Except PyErr (Levels × String) :=
  match env.modelResult with
  | .error m => .error (.modelError m)
  | .ok frags =>
      match parseStage (cleanStage (aggregate frags)) with
      | .error e => .error e
      | .ok qa =>
          match normalizeShape qa with
          | .error e => .error e
          | .ok lv => .ok (lv, "gemini")

/-- `generate_qa` (lines 29-122) together with the number of model
invocations it performs: fail unavailable at once when the credential is
falsy (line 37, before the `try`, with zero calls), otherwise run the body
(one call) and wrap any failure other than `AIUnavailableError` into
`AIUnavailableError` with the cause interpolated (lines 119-122). -/
def generateQaT (env : Env) : Except PyErr (Levels × String) × Nat :=
  if !pyTruthyKey env.geminiApiKey then
    (.error (.aiUnavailable "Gemini API key not configured"), 0)
  else
    match generateQaBody env with
    | .ok r => (.ok r, 1)
    | .error (.aiUnavailable m) => (.error (.aiUnavailable m), 1)
    | .error e =>
        (.error (.aiUnavailable ("Gemini generation failed: " ++ e.message)), 1)

/-- The result of `generate_qa`, without the instrumentation. -/
def generateQa (env : Env) : Except PyErr (Levels × String) :=
  (generateQaT env).1

/-! ## run (src/agent.py lines 124-147) -/

/-- The dict returned by the save callback (`database.save_interview`):
an id, a creation timestamp, and possibly the stored Q&A structure. -/
structure SaveRecord where
  id : Nat
  createdAt : Option String
  qa : Option Levels

/-- One invocation of the save callback, with its arguments. -/
structure SaveCall where
  jobTitle : Str
  jobDescription : Str
  questions : List Str
  qa : Levels

/-- The dict returned by `run` (lines 139-147). -/
structure RunResult where
  id : Nat
  jobTitle : Str
  jobDescription : Str
  questions : List Str
  qa : Levels
  createdAt : Option String
  source : String

/-- Observable side effects of one `run` call: how many model invocations
and which save invocations happened. -/
structure Trace where
  modelCalls : Nat
  saveCalls : List SaveCall

/-- The dict values of the levels dict, in insertion order (line 133
iterates `qa_by_level.values()`). -/
def Levels.values (lv : Levels) : List (List Json) :=
  [lv.basic, lv.intermediate, lv.expert]

/-- The value of `x.get("question") or ""` on line 135: the `question`
value, with a missing key or a falsy value defaulted to the empty
string. -/
def questionValue (fields : List (Str × Json)) : Json :=
  match dictGet fields keyQuestion with
  | none => Json.str []
  | some v => if pyFalsy v then Json.str [] else v

/-- Lines 134-137, one entry: read `x.get("question")`, default falsy
values to the empty string (`or ""`), strip, and append when non-empty.
A non-dict entry or a truthy non-string question would raise
`AttributeError` in Python. -/
def flatStep (acc : List Str) (x : Json) : Except PyErr (List Str) :=
  match x with
  | .obj fields =>
      match questionValue fields with
      | .str s =>
          let t := pyStrip s
          .ok (if t.isEmpty then acc else acc ++ [t])
      | _ => .error (.attributeError "question value has no strip method")
  | _ => .error (.attributeError "entry has no get method")

/-- Lines 132-137: flatten the questions across all levels, in dict-value
order. -/
def flatQs (lv : Levels) : Except PyErr (List Str) :=
  lv.values.foldlM (fun acc arr => arr.foldlM flatStep acc) []

/-- `run` (lines 124-147): trim and validate the request, generate,
flatten, save, assemble the response (line 144 falls back to the in-memory
structure when the record carries no `qa`).  Paired with the trace of
model and save invocations. -/
def run (env : Env) (save : Str → Str → List Str → Levels → SaveRecord)
    (jobTitle jobDescription : Str) : Except PyErr RunResult × Trace :=
  let jt := pyStrip jobTitle
  let jd := pyStrip jobDescription
  if jt.isEmpty || jd.isEmpty then
    (.error (.valueError "job_title and job_description are required"), ⟨0, []⟩)
  else
    match generateQaT env with
    | (.error e, mc) => (.error e, ⟨mc, []⟩)
    | (.ok (lv, src), mc) =>
        match flatQs lv with
        | .error e => (.error e, ⟨mc, []⟩)
        | .ok qs =>
            let record := save jt jd qs lv
            (.ok { id := record.id, jobTitle := jt, jobDescription := jd,
                   questions := qs,
                   qa := match record.qa with | some q => q | none => lv,
                   createdAt := record.createdAt, source := src },
             ⟨mc, [⟨jt, jd, qs, lv⟩]⟩)

/-! ## Characterizations of the extraction search -/

/-- Index-arithmetic characterization of the greedy search: the span runs
from the first opening character to the last closing character, provided the
former strictly precedes the latter. -/
def greedySpan (o c : Char) (cs : Str) : Option Str :=
  match findChar o cs, rfindChar c cs with
  | some i, some j => if i < j then some ((cs.drop i).take (j + 1 - i)) else none
  | _, _ => none

/-- Without any closing character there is no match. -/
theorem reSpan_none_of_rfindChar_none (o c : Char) :
    ∀ cs : Str, rfindChar c cs = none → reSpan o c cs = none := by
  intro cs
  induction cs with
  | nil => intro _; rfl
  | cons x xs ih =>
      intro h
      have hx : rfindChar c xs = none ∧ x ≠ c := by
        cases hr : rfindChar c xs with
        | some j => simp only [rfindChar, hr] at h; exact absurd h (by simp)
        | none =>
            refine ⟨rfl, ?_⟩
            intro he
            simp only [rfindChar, hr, if_pos he] at h
            exact Option.noConfusion h
      simp only [reSpan, hx.1]
      by_cases hxo : x = o
      · rw [if_pos hxo]; exact ih hx.1
      · rw [if_neg hxo]; exact ih hx.1

/-- The search performed by the extraction regexes equals the span from the
first opening character to the last closing character. -/
theorem reSpan_eq_greedySpan (o c : Char) (cs : Str) :
    reSpan o c cs = greedySpan o c cs := by
  induction cs with
  | nil => rfl
  | cons x xs ih =>
      by_cases hxo : x = o
      · have hL : reSpan o c (x :: xs) =
            (match rfindChar c xs with
             | some j => some (x :: xs.take (j + 1))
             | none => reSpan o c xs) := by
          simp only [reSpan, if_pos hxo]
        have hfc : findChar o (x :: xs) = some 0 := by
          simp only [findChar, if_pos hxo]
        cases hr : rfindChar c xs with
        | some j =>
            have hrc : rfindChar c (x :: xs) = some (j + 1) := by
              simp only [rfindChar, hr]
            rw [hL, hr]
            simp [greedySpan, hfc, hrc, List.take_succ_cons]
        | none =>
            by_cases hxc : x = c
            · have hrc : rfindChar c (x :: xs) = some 0 := by
                simp only [rfindChar, hr, if_pos hxc]
              rw [hL, hr]
              simp only [greedySpan, hfc, hrc]
              rw [if_neg (show ¬ (0 < 0) by omega)]
              exact reSpan_none_of_rfindChar_none o c xs hr
            · have hrc : rfindChar c (x :: xs) = none := by
                simp only [rfindChar, hr, if_neg hxc]
              rw [hL, hr]
              simp only [greedySpan, hfc, hrc]
              exact reSpan_none_of_rfindChar_none o c xs hr
      · have hL : reSpan o c (x :: xs) = reSpan o c xs := by
          simp only [reSpan, if_neg hxo]
        have hfc : findChar o (x :: xs) = (findChar o xs).map (· + 1) := by
          simp only [findChar, if_neg hxo]
        rw [hL, ih]
        cases hf : findChar o xs with
        | none =>
            have h1 : findChar o (x :: xs) = none := by rw [hfc, hf]; rfl
            simp only [greedySpan, h1, hf]
        | some i =>
            have h1 : findChar o (x :: xs) = some (i + 1) := by rw [hfc, hf]; rfl
            cases hr : rfindChar c xs with
            | some j =>
                have hrc : rfindChar c (x :: xs) = some (j + 1) := by
                  simp only [rfindChar, hr]
                simp only [greedySpan, h1, hf, hr, hrc]
                by_cases hij : i < j
                · rw [if_pos hij, if_pos (show i + 1 < j + 1 by omega)]
                  rw [show j + 1 + 1 - (i + 1) = j + 1 - i from by omega]
                  rw [List.drop_succ_cons]
                · rw [if_neg hij, if_neg (show ¬ (i + 1 < j + 1) by omega)]
            | none =>
                by_cases hxc : x = c
                · have hrc : rfindChar c (x :: xs) = some 0 := by
                    simp only [rfindChar, hr, if_pos hxc]
                  simp only [greedySpan, h1, hf, hr, hrc]
                  rw [if_neg (show ¬ (i + 1 < 0) by omega)]
                · have hrc : rfindChar c (x :: xs) = none := by
                    simp only [rfindChar, hr, if_neg hxc]
                  simp only [greedySpan, h1, hf, hr, hrc]

/-- Take characters up to (and including) the closing character that
balances `depth` already-open occurrences, counting nesting. -/
def takeBalanced (o c : Char) (depth : Nat) : Str → Option Str
  | [] => none
  | x :: xs =>
      if x = c then
        match depth with
        | 0 => none
        | 1 => some [x]
        | d + 2 => (takeBalanced o c (d + 1) xs).map (x :: ·)
      else if x = o then (takeBalanced o c (depth + 1) xs).map (x :: ·)
      else (takeBalanced o c depth xs).map (x :: ·)

/-- Comparison definition following the words of the specification: the
first balanced top-level span delimited by the given opening and closing
characters. -/
def specFirstBalanced (o c : Char) : Str → Option Str
  | [] => none
  | x :: xs =>
      if x = o then (takeBalanced o c 1 xs).map (x :: ·)
      else specFirstBalanced o c xs

/-- Comparison definition following the words of the specification: the
first balanced top-level JSON object of a text. -/
def specFirstBalancedObject (cs : Str) : Option Str :=
  specFirstBalanced '{' '}' cs

/-- A text on which direct parsing fails, which contains a first balanced
top-level JSON object that parses, but whose greedy first-brace-to-last-brace
span does not parse. -/
def exC1 : Str :=
  ("\x7b\"basic\": [\x7b\"question\": \"q\", \"answer\": \"a\"\x7d]\x7d \x7b\x7d").data

/-- The first balanced top-level JSON object inside `exC1`. -/
def exC1obj : Str :=
  ("\x7b\"basic\": [\x7b\"question\": \"q\", \"answer\": \"a\"\x7d]\x7d").data

/-- C1: the claim is refuted at `exC1`: direct parsing fails, the text
contains a first balanced top-level JSON object which is itself valid JSON
(so the claimed behaviour parses it and succeeds), yet the extraction stage
of `generate_qa` fails, because it extracts the span from the first `\x7b` to
the last `\x7d`, which is not valid JSON. -/
theorem c1_counterexample :
    loads exC1 = none ∧
    specFirstBalancedObject exC1 = some exC1obj ∧
    (loads exC1obj).isSome = true ∧
    parseStage exC1 = .error (.jsonError "extracted object span does not parse") :=
  ⟨rfl, rfl, rfl, rfl⟩

/-- C1 (amended): for every input text on which direct JSON parsing fails,
the extraction stage takes the substring running from the first `\x7b` to the
last `\x7d` of the whole text (provided the former precedes the latter) and,
separately, the substring from the first `[` to the last `]`, prefers the
object span when both exist, parses whichever is found (failing when the
extracted span is not valid JSON), and fails when neither is found. -/
theorem c1_amended (cs : Str) (h : loads cs = none) :
    parseStage cs =
      (match greedySpan '{' '}' cs with
       | some t =>
           (match loads t with
            | some qa => .ok qa
            | none => .error (.jsonError "extracted object span does not parse"))
       | none =>
           match greedySpan '[' ']' cs with
           | some t =>
               (match loads t with
                | some qa => .ok (Json.obj [(keyBasic, qa)])
                | none => .error (.jsonError "extracted array span does not parse"))
           | none => .error (.jsonError "no JSON document in model output")) := by
  simp only [parseStage, h, reSpan_eq_greedySpan]

/-- Witness for the amended C1, at the concrete input `exC1`. -/
theorem c1_amended_witness :
    parseStage exC1 =
      (match greedySpan '{' '}' exC1 with
       | some t =>
           (match loads t with
            | some qa => .ok qa
            | none => .error (.jsonError "extracted object span does not parse"))
       | none =>
           match greedySpan '[' ']' exC1 with
           | some t =>
               (match loads t with
                | some qa => .ok (Json.obj [(keyBasic, qa)])
                | none => .error (.jsonError "extracted array span does not parse"))
           | none => .error (.jsonError "no JSON document in model output")) :=
  c1_amended exC1 rfl

/-- C2: for every parsed leveled JSON object, `generate_qa` raises an error
if and only if all three tiers are empty after filtering out malformed
entries; otherwise it returns exactly the three filtered tiers, so a result
with at least one non-empty tier is accepted even when the others are
empty. -/
theorem c2 (fields : List (Str × Json)) :
    (isErrB (normalizeShape (Json.obj fields)) = true ↔
      tierOf fields keyBasic = [] ∧ tierOf fields keyIntermediate = [] ∧
        tierOf fields keyExpert = []) ∧
    (∀ lv, normalizeShape (Json.obj fields) = .ok lv →
      lv = ⟨tierOf fields keyBasic, tierOf fields keyIntermediate, tierOf fields keyExpert⟩) := by
  constructor
  · simp only [normalizeShape, checkAny]
    split
    · next hc =>
        simp only [isErrB]
        simp only [Bool.and_eq_true, List.isEmpty_iff] at hc
        simp [hc.1.1, hc.1.2, hc.2]
    · next hc =>
        simp only [isErrB]
        simp only [Bool.and_eq_true, List.isEmpty_iff] at hc
        constructor
        · intro h; exact absurd h (by simp)
        · intro h; exact absurd h (by tauto)
  · intro lv h
    simp only [normalizeShape, checkAny] at h
    split at h
    · exact absurd h (by simp)
    · injection h with h2; exact h2.symm

/-- A well-formed question-answer entry. -/
def exPair : Json := Json.obj [(keyQuestion, Json.str ['q']), (keyAnswer, Json.str ['a'])]

/-- A leveled object in which only the expert tier is populated. -/
def exFields : List (Str × Json) := [(keyExpert, Json.arr [exPair])]

/-- Witness for C2: partial coverage (only the expert tier populated) is
accepted and returns the filtered tiers. -/
theorem c2_witness :
    normalizeShape (Json.obj exFields) = .ok ⟨[], [], [exPair]⟩ ∧
    (⟨[], [], [exPair]⟩ : Levels) =
      ⟨tierOf exFields keyBasic, tierOf exFields keyIntermediate, tierOf exFields keyExpert⟩ :=
  ⟨rfl, (c2 exFields).2 ⟨[], [], [exPair]⟩ rfl⟩

/-- C3: the entry filter keeps exactly the dict entries carrying both the
`question` and the `answer` key, in their original order (the kept entries
form a sublist), for a bare array and for a tier list alike; dropped
entries never cause a failure by themselves (appending a malformed entry
leaves the filter result unchanged). -/
theorem c3 (xs : List Json) :
    List.Sublist (filterEntries xs) xs ∧
    (∀ x, x ∈ filterEntries xs ↔ x ∈ xs ∧ isQAEntry x = true) ∧
    (∀ lv, normalizeShape (Json.arr xs) = .ok lv → lv.basic = xs.filter isQAEntry) ∧
    (∀ b, isQAEntry b = false → filterEntries (xs ++ [b]) = filterEntries xs) ∧
    (∀ fields v, dictGet fields keyBasic = some (Json.arr v) →
      tierOf fields keyBasic = v.filter isQAEntry) := by
  refine ⟨List.filter_sublist xs, ?_, ?_, ?_, ?_⟩
  · intro x; exact List.mem_filter
  · intro lv h
    simp only [normalizeShape, checkAny] at h
    split at h
    · exact absurd h (by simp)
    · injection h with h2; rw [← h2]; rfl
  · intro b hb
    simp [filterEntries, List.filter_append, hb]
  · intro fields v h
    simp only [tierOf, h, filterEntries]

/-- Witness for C3, on a list holding one well-formed and one malformed
entry. -/
theorem c3_witness :
    List.Sublist (filterEntries [exPair, Json.num 3]) [exPair, Json.num 3] ∧
    (exPair ∈ filterEntries [exPair, Json.num 3] ↔
      exPair ∈ [exPair, Json.num 3] ∧ isQAEntry exPair = true) ∧
    (⟨[exPair], [], []⟩ : Levels).basic = List.filter isQAEntry [exPair] ∧
    filterEntries ([exPair, Json.num 3] ++ [Json.null]) = filterEntries [exPair, Json.num 3] ∧
    tierOf [(keyBasic, Json.arr [exPair])] keyBasic = List.filter isQAEntry [exPair] := by
  have h := c3 [exPair, Json.num 3]
  exact ⟨h.1, h.2.1 exPair, (c3 [exPair]).2.2.1 ⟨[exPair], [], []⟩ rfl,
    h.2.2.2.1 Json.null rfl, (c3 [exPair]).2.2.2.2 [(keyBasic, Json.arr [exPair])] [exPair] rfl⟩

/-- C4: a bare array where a leveled object was expected is never rejected
for its shape: its filtered entries all land in the `basic` tier with the
other tiers empty, it fails only through the all-tiers-empty rule, and on
the extraction path a found array span is wrapped as the `basic` key of a
fresh object. -/
theorem c4 (xs : List Json) :
    normalizeShape (Json.arr xs) ≠ .error (.valueError "invalid JSON shape from Gemini") ∧
    (∀ lv, normalizeShape (Json.arr xs) = .ok lv →
      lv.basic = filterEntries xs ∧ lv.intermediate = [] ∧ lv.expert = []) ∧
    (isErrB (normalizeShape (Json.arr xs)) = true ↔ filterEntries xs = []) ∧
    (∀ cs v, loads cs = none → reSpan '{' '}' cs = none → reSpan '[' ']' cs = some v →
      ∀ j, loads v = some j → parseStage cs = .ok (Json.obj [(keyBasic, j)])) := by
  refine ⟨?_, ?_, ?_, ?_⟩
  · simp only [normalizeShape, checkAny]
    split
    · intro h; injection h with h2; simp at h2
    · intro h; exact Except.noConfusion h
  · intro lv h
    simp only [normalizeShape, checkAny] at h
    split at h
    · exact absurd h (by simp)
    · injection h with h2; rw [← h2]; exact ⟨rfl, rfl, rfl⟩
  · simp only [normalizeShape, checkAny]
    split
    · next hc =>
        simp only [isErrB]
        simp only [Bool.and_eq_true, List.isEmpty_iff] at hc
        simp [hc.1.1]
    · next hc =>
        simp only [isErrB]
        simp only [Bool.and_eq_true, List.isEmpty_iff] at hc
        constructor
        · intro h; exact absurd h (by simp)
        · intro h
          exact absurd h (by simpa [filterEntries, List.isEmpty_iff] using hc)
  · intro cs v h1 h2 h3 j h4
    simp only [parseStage, h1, h2, h3, h4]

/-- Prose containing a bare array and no braces. -/
def exC4 : Str := ("prose [1, 2] prose").data

/-- Witness for C4, on a one-entry array and on a prose-wrapped array with
no object span. -/
theorem c4_witness :
    normalizeShape (Json.arr [exPair]) ≠ .error (.valueError "invalid JSON shape from Gemini") ∧
    ((⟨[exPair], [], []⟩ : Levels).basic = filterEntries [exPair] ∧
      (⟨[exPair], [], []⟩ : Levels).intermediate = [] ∧
      (⟨[exPair], [], []⟩ : Levels).expert = []) ∧
    parseStage exC4 = .ok (Json.obj [(keyBasic, Json.arr [Json.num 1, Json.num 2])]) := by
  have h := c4 [exPair]
  exact ⟨h.1, h.2.1 ⟨[exPair], [], []⟩ rfl,
    h.2.2.2 exC4 (("[1, 2]").data) rfl rfl rfl (Json.arr [Json.num 1, Json.num 2]) rfl⟩

/-- The extraction stage never raises `AIUnavailableError` itself. -/
theorem parseStage_not_unavailable (cs : Str) (m : String) :
    parseStage cs ≠ .error (.aiUnavailable m) := by
  intro h
  unfold parseStage at h
  split at h
  · simp at h
  · split at h
    · split at h <;> simp at h
    · split at h
      · split at h <;> simp at h
      · simp at h

/-- The shape-normalization stage never raises `AIUnavailableError` itself. -/
theorem normalizeShape_not_unavailable (qa : Json) (m : String) :
    normalizeShape qa ≠ .error (.aiUnavailable m) := by
  intro h
  cases qa <;> simp only [normalizeShape, checkAny] at h <;>
    first
      | (split at h <;> simp at h)
      | simp at h

/-- The body of the `try` block never raises `AIUnavailableError` itself. -/
theorem generateQaBody_not_unavailable (env : Env) (m : String) :
    generateQaBody env ≠ .error (.aiUnavailable m) := by
  intro h
  unfold generateQaBody at h
  split at h
  · simp at h
  · split at h
    · next he =>
        injection h with h2
        rw [h2] at he
        exact parseStage_not_unavailable _ m he
    · split at h
      · next he =>
          injection h with h2
          rw [h2] at he
          exact normalizeShape_not_unavailable _ m he
      · simp at h

/-- C5: `generate_qa` fails with `AIUnavailableError` when no API key is
configured; every failure of the body (model call, parse, normalization) is
wrapped into `AIUnavailableError` with the original cause interpolated into
the message; and no error kind other than `AIUnavailableError` ever escapes
`generate_qa`. -/
theorem c5 (env : Env) :
    (pyTruthyKey env.geminiApiKey = false →
      generateQa env = .error (.aiUnavailable "Gemini API key not configured")) ∧
    (∀ e, generateQa env = .error e → ∃ m, e = .aiUnavailable m) ∧
    (pyTruthyKey env.geminiApiKey = true →
      ∀ e, generateQaBody env = .error e →
        generateQa env = .error (.aiUnavailable ("Gemini generation failed: " ++ e.message))) := by
  refine ⟨?_, ?_, ?_⟩
  · intro hk
    simp [generateQa, generateQaT, hk]
  · intro e h
    simp only [generateQa, generateQaT] at h
    split at h
    · simp only at h
      exact ⟨_, (Except.error.inj h.symm)⟩
    · split at h <;> simp only at h
      · exact absurd h (by simp)
      · exact ⟨_, (Except.error.inj h.symm)⟩
      · exact ⟨_, (Except.error.inj h.symm)⟩
  · intro hk e h
    simp only [generateQa, generateQaT, hk, Bool.not_true, Bool.false_eq_true, if_false]
    rw [h]
    cases e with
    | aiUnavailable m => exact absurd h (generateQaBody_not_unavailable env m)
    | valueError m => rfl
    | jsonError m => rfl
    | modelError m => rfl
    | attributeError m => rfl

/-- An environment with no API key configured. -/
def exEnvDown : Env := ⟨none, .error "boom"⟩
/-- An environment with a key configured whose model call fails. -/
def exEnvFail : Env := ⟨some "k", .error "boom"⟩
/-- A save callback that records id 7 and echoes the Q&A structure. -/
def exSave : Str → Str → List Str → Levels → SaveRecord :=
  fun _ _ _ lv => ⟨7, some "2026-01-01T00:00:00Z", some lv⟩

/-- Witness for C5: the missing-key environment and a failing-call
environment. -/
theorem c5_witness :
    generateQa exEnvDown = .error (.aiUnavailable "Gemini API key not configured") ∧
    (∃ m, (PyErr.aiUnavailable "Gemini API key not configured") = .aiUnavailable m) ∧
    generateQa exEnvFail =
      .error (.aiUnavailable ("Gemini generation failed: " ++ (PyErr.modelError "boom").message)) :=
  ⟨(c5 exEnvDown).1 rfl, (c5 exEnvDown).2.1 _ ((c5 exEnvDown).1 rfl),
    (c5 exEnvFail).2.2 rfl (.modelError "boom") rfl⟩

/-- C6: when the job title or the job description is empty after trimming,
`run` fails with the validation error, the model is never invoked, and
nothing is saved. -/
theorem c6 (env : Env) (save : Str → Str → List Str → Levels → SaveRecord)
    (jt jd : Str) (h : (pyStrip jt).isEmpty = true ∨ (pyStrip jd).isEmpty = true) :
    run env save jt jd =
      (.error (.valueError "job_title and job_description are required"), ⟨0, []⟩) := by
  cases h with
  | inl h1 => simp [run, h1]
  | inr h2 => simp [run, h2]

/-- Witness for C6, with a whitespace-only job description. -/
theorem c6_witness :
    run exEnvDown exSave ("Backend Engineer".data) ("   ".data) =
      (.error (.valueError "job_title and job_description are required"), ⟨0, []⟩) :=
  c6 exEnvDown exSave ("Backend Engineer".data) ("   ".data) (Or.inr rfl)

/-- C7: whenever generation fails, `run` fails and never invokes the save
callback, so persisted state is unchanged. -/
theorem c7 (env : Env) (save : Str → Str → List Str → Levels → SaveRecord)
    (jt jd : Str) (e : PyErr) (h : generateQa env = .error e) :
    (run env save jt jd).2.saveCalls = [] ∧ isOkB (run env save jt jd).1 = false := by
  rcases hg : generateQaT env with ⟨a, mc⟩
  have ha : a = .error e := by rw [generateQa, hg] at h; exact h
  subst ha
  by_cases hv : ((pyStrip jt).isEmpty || (pyStrip jd).isEmpty) = true
  · simp [run, hv, isOkB]
  · simp [run, hv, hg, isOkB]

/-- Witness for C7, on the missing-key environment. -/
theorem c7_witness :
    (run exEnvDown exSave ("T".data) ("D".data)).2.saveCalls = [] ∧
    isOkB (run exEnvDown exSave ("T".data) ("D".data)).1 = false :=
  c7 exEnvDown exSave ("T".data) ("D".data)
    (.aiUnavailable "Gemini API key not configured") rfl

/-- A payload wrapped in a triple-backtick fence with a language tag on the
opening fence and a closing fence. -/
def fenceWrap (tag payload : Str) : Str :=
  fenceMark ++ tag ++ '\n' :: (payload ++ '\n' :: fenceMark)

/-- The whole normalization of one content text: clean, parse/extract,
normalize the shape (the composition `generate_qa` applies to the
aggregated model text). -/
def normalizeText (content : Str) : Except PyErr Levels :=
  match parseStage (cleanStage content) with
  | .error e => .error e
  | .ok qa => normalizeShape qa

/-- A backtick is not whitespace. -/
theorem btick_not_ws : isPyWs btick = false := by decide

/-- A newline is whitespace. -/
theorem nl_ws : isPyWs '\n' = true := by decide

/-- Reassociation of the fenced text around its closing fence. -/
theorem fenceWrap_assoc (tag payload : Str) :
    fenceWrap tag payload =
      (((fenceMark ++ tag) ++ ['\n']) ++ (payload ++ ['\n'])) ++ fenceMark := by
  simp [fenceWrap]

/-- Fenced text has no surrounding whitespace, so stripping keeps it. -/
theorem pyStrip_fenceWrap (tag payload : Str) :
    pyStrip (fenceWrap tag payload) = fenceWrap tag payload := by
  have h1 : (fenceWrap tag payload).dropWhile isPyWs = fenceWrap tag payload := by
    simp [fenceWrap, fenceMark, List.dropWhile_cons, btick_not_ws]
  unfold pyStrip
  rw [h1, fenceWrap_assoc, List.reverse_append,
    show (fenceMark : Str).reverse = fenceMark from rfl]
  have h2 : (fenceMark ++ ((((fenceMark ++ tag) ++ ['\n']) ++ (payload ++ ['\n'])) : Str).reverse).dropWhile isPyWs
      = fenceMark ++ ((((fenceMark ++ tag) ++ ['\n']) ++ (payload ++ ['\n'])) : Str).reverse := by
    simp [fenceMark, List.dropWhile_cons, btick_not_ws]
  rw [h2, List.reverse_append, List.reverse_reverse,
    show (fenceMark : Str).reverse = fenceMark from rfl]

/-- Stripping absorbs one trailing newline. -/
theorem pyStrip_append_nl (u : Str) : pyStrip (u ++ ['\n']) = pyStrip u := by
  unfold pyStrip
  rw [List.dropWhile_append]
  by_cases h : (u.dropWhile isPyWs).isEmpty
  · rw [if_pos h]
    rw [List.isEmpty_iff.mp h]
    rfl
  · rw [if_neg h, List.reverse_append,
      show (['\n'] : Str).reverse = ['\n'] from rfl]
    simp [List.dropWhile_cons, nl_ws]

/-- The first newline after a newline-free prefix. -/
theorem findChar_append_nl (pre rest : Str) (h : '\n' ∉ pre) :
    findChar '\n' (pre ++ '\n' :: rest) = some pre.length := by
  induction pre with
  | nil => simp [findChar]
  | cons x xs ih =>
      have hx : ¬ (x = '\n') := fun he => h (by rw [he]; exact List.mem_cons_self _ _)
      have hxs : '\n' ∉ xs := fun hm => h (List.mem_cons_of_mem x hm)
      simp [findChar, hx, ih hxs]

/-- The last fence marker of a text that ends with one. -/
theorem rfindSub_fence (s : Str) : rfindSub fenceMark (s ++ fenceMark) = some s.length := by
  induction s with
  | nil => rfl
  | cons c cs ih => simp [rfindSub, ih]

/-- The cleaning stage maps fenced text to the stripped payload. -/
theorem cleanStage_fenced (tag payload : Str) (htag : '\n' ∉ tag) :
    cleanStage (fenceWrap tag payload) = pyStrip payload := by
  have hnot : '\n' ∉ fenceMark ++ tag := by
    intro hm
    rcases List.mem_append.mp hm with h1 | h2
    · exact absurd h1 (by decide)
    · exact htag h2
  have hpre : fenceMark.isPrefixOf (fenceWrap tag payload) = true := by
    simp [fenceWrap, fenceMark, List.isPrefixOf]
  have hsplit : fenceWrap tag payload = (fenceMark ++ tag) ++ '\n' :: (payload ++ '\n' :: fenceMark) := by
    simp [fenceWrap]
  have hfind : findChar '\n' (fenceWrap tag payload) = some (tag.length + 3) := by
    rw [hsplit, findChar_append_nl _ _ hnot]
    simp [fenceMark]
  have hrfind : rfindSub fenceMark (fenceWrap tag payload) =
      some (tag.length + payload.length + 5) := by
    rw [fenceWrap_assoc, rfindSub_fence]
    simp [fenceMark]
    omega
  unfold cleanStage
  simp only [pyStrip_fenceWrap, hpre, hfind, hrfind, if_true]
  rw [if_pos (by omega : 0 < tag.length + 3 + 1 ∧ tag.length + 3 + 1 < tag.length + payload.length + 5)]
  have hsplit2 : fenceWrap tag payload =
      ((fenceMark ++ tag) ++ ['\n']) ++ ((payload ++ ['\n']) ++ fenceMark) := by
    simp [fenceWrap]
  rw [hsplit2]
  rw [List.drop_left' (by simp [fenceMark] :
    ((fenceMark ++ tag) ++ ['\n'] : Str).length = tag.length + 3 + 1)]
  rw [show tag.length + payload.length + 5 - (tag.length + 3 + 1) = payload.length + 1 from by omega]
  rw [List.take_left' (by simp : ((payload ++ ['\n']) : Str).length = payload.length + 1)]
  exact pyStrip_append_nl payload

/-- The cleaning stage merely strips text that does not open with a
fence. -/
theorem cleanStage_plain (payload : Str)
    (hp : fenceMark.isPrefixOf (pyStrip payload) = false) :
    cleanStage payload = pyStrip payload := by
  unfold cleanStage
  simp only [hp, Bool.false_eq_true, if_false]

/-- C8: a JSON payload wrapped in a triple-backtick fence (with a language
tag on the opening fence and a closing fence) normalizes to a result
structurally identical to normalizing the unfenced payload, for every
payload that does not itself open with a fence once stripped. -/
theorem c8 (tag payload : Str) (htag : '\n' ∉ tag)
    (hp : fenceMark.isPrefixOf (pyStrip payload) = false) :
    normalizeText (fenceWrap tag payload) = normalizeText payload := by
  unfold normalizeText
  rw [cleanStage_fenced tag payload htag, cleanStage_plain payload hp]

/-- A leveled JSON text with one well-formed basic pair and one expert pair
whose question is whitespace-only. -/
def exText : Str :=
  ("\x7b\"basic\": [\x7b\"question\": \"Q1\", \"answer\": \"A1\"\x7d], \"expert\": [\x7b\"question\": \" \", \"answer\": \"A2\"\x7d]\x7d").data

/-- Witness for C8, on a concrete fenced leveled JSON text. -/
theorem c8_witness :
    normalizeText (fenceWrap (("json").data) exText) = normalizeText exText :=
  c8 (("json").data) exText (by decide) rfl

/-- The flattening of one tier list, starting from an empty accumulator. -/
def tierFlat (xs : List Json) : Except PyErr (List Str) :=
  xs.foldlM flatStep []

/-- The contribution one entry makes to the flattened questions: the
stripped question when it is a non-empty string, nothing when it strips to
empty. -/
def qContrib (x : Json) : List Str :=
  match x with
  | .obj fields =>
      match questionValue fields with
      | .str s => if (pyStrip s).isEmpty then [] else [pyStrip s]
      | _ => []
  | _ => []

/-- Declarative flattening of a tier: concatenate the contributions in
array order. -/
def flattenSpec (xs : List Json) : List Str :=
  xs.foldr (fun x acc => qContrib x ++ acc) []

/-- A successful step appends exactly the entry's contribution. -/
theorem flatStep_ok (acc : List Str) (x : Json) (r : List Str)
    (h : flatStep acc x = .ok r) :
    r = acc ++ qContrib x ∧ flatStep [] x = .ok (qContrib x) := by
  cases x with
  | obj fields =>
      simp only [flatStep, qContrib] at h ⊢
      cases hq : questionValue fields with
      | str s =>
          rw [hq] at h
          simp only at h ⊢
          injection h with h2
          by_cases ht : (pyStrip s).isEmpty
          · simp [ht] at h2 ⊢
            exact h2.symm
          · simp [ht] at h2 ⊢
            exact h2.symm
      | null => rw [hq] at h; simp at h
      | bool b => rw [hq] at h; simp at h
      | num n => rw [hq] at h; simp at h
      | arr a => rw [hq] at h; simp at h
      | obj o => rw [hq] at h; simp at h
  | null => simp [flatStep] at h
  | bool b => simp [flatStep] at h
  | num n => simp [flatStep] at h
  | str s => simp [flatStep] at h
  | arr a => simp [flatStep] at h

/-- A failing step fails for every accumulator. -/
theorem flatStep_error (acc : List Str) (x : Json) (e : PyErr)
    (h : flatStep acc x = .error e) :
    ∀ acc2, flatStep acc2 x = .error e := by
  intro acc2
  cases x with
  | obj fields =>
      simp only [flatStep] at h ⊢
      cases hq : questionValue fields with
      | str s => rw [hq] at h; simp at h
      | null => rw [hq] at h; exact h
      | bool b => rw [hq] at h; exact h
      | num n => rw [hq] at h; exact h
      | arr a => rw [hq] at h; exact h
      | obj o => rw [hq] at h; exact h
  | null => exact h
  | bool b => exact h
  | num n => exact h
  | str s => exact h
  | arr a => exact h

/-- Flattening from any accumulator prefixes the accumulator to the
flattening from the empty one. -/
theorem tierFlat_shift (xs : List Json) :
    ∀ acc, xs.foldlM flatStep acc = (tierFlat xs).map (acc ++ ·) := by
  induction xs with
  | nil => intro acc; simp [tierFlat, Except.map, pure, Except.pure]
  | cons x xs ih =>
      intro acc
      rw [List.foldlM_cons]
      have hR : tierFlat (x :: xs) = flatStep [] x >>= fun a => xs.foldlM flatStep a := by
        rw [tierFlat, List.foldlM_cons]
      cases hs : flatStep acc x with
      | error e =>
          have h0 : flatStep [] x = .error e := flatStep_error acc x e hs []
          rw [hR, h0]
          rfl
      | ok a =>
          obtain ⟨ha, h0⟩ := flatStep_ok acc x a hs
          subst ha
          rw [hR, h0]
          show xs.foldlM flatStep (acc ++ qContrib x) =
            (xs.foldlM flatStep (qContrib x)).map (acc ++ ·)
          rw [ih (acc ++ qContrib x), ih (qContrib x)]
          cases tierFlat xs <;> simp [Except.map, List.append_assoc]

/-- A successful tier flattening is the declarative flattening. -/
theorem tierFlat_ok_eq (xs : List Json) :
    ∀ q, tierFlat xs = .ok q → q = flattenSpec xs := by
  induction xs with
  | nil =>
      intro q h
      have h2 : (Except.ok ([] : List Str) : Except PyErr (List Str)) = .ok q := h
      injection h2 with h3
      rw [← h3]
      rfl
  | cons x xs ih =>
      intro q h
      rw [tierFlat, List.foldlM_cons] at h
      cases hs : flatStep [] x with
      | error e =>
          rw [hs] at h
          exact Except.noConfusion (h : (Except.error e : Except PyErr (List Str)) = .ok q)
      | ok a =>
          obtain ⟨ha, h0⟩ := flatStep_ok [] x a hs
          simp only [List.nil_append] at ha
          subst ha
          rw [hs] at h
          have h2 : xs.foldlM flatStep (qContrib x) = .ok q := h
          rw [tierFlat_shift xs (qContrib x)] at h2
          cases ht : tierFlat xs with
          | error e2 => rw [ht] at h2; simp [Except.map] at h2
          | ok q2 =>
              rw [ht] at h2
              simp [Except.map] at h2
              rw [← h2, ih q2 ht]
              simp [flattenSpec]

/-- Lines 132-137 as a chain of tier flattenings in dict-value order. -/
theorem flatQs_eq_bind (lv : Levels) :
    flatQs lv = tierFlat lv.basic >>= fun a1 =>
      lv.intermediate.foldlM flatStep a1 >>= fun a2 =>
        lv.expert.foldlM flatStep a2 >>= fun a3 => pure a3 := rfl

/-- A successful flattening splits into successful per-tier flattenings,
concatenated in the order basic, intermediate, expert. -/
theorem flatQs_decomp (lv : Levels) (qs : List Str) (h : flatQs lv = .ok qs) :
    ∃ b i e, tierFlat lv.basic = .ok b ∧ tierFlat lv.intermediate = .ok i ∧
      tierFlat lv.expert = .ok e ∧ qs = b ++ i ++ e := by
  rw [flatQs_eq_bind] at h
  cases hb : tierFlat lv.basic with
  | error e =>
      rw [hb] at h
      exact Except.noConfusion (h : (Except.error e : Except PyErr (List Str)) = .ok qs)
  | ok b =>
      rw [hb] at h
      have h2 : (lv.intermediate.foldlM flatStep b >>= fun a2 =>
          lv.expert.foldlM flatStep a2 >>= fun a3 => pure a3) = .ok qs := h
      rw [tierFlat_shift lv.intermediate b] at h2
      cases hi : tierFlat lv.intermediate with
      | error e =>
          rw [hi] at h2
          exact Except.noConfusion (h2 : (Except.error e : Except PyErr (List Str)) = .ok qs)
      | ok i =>
          rw [hi] at h2
          have h3 : (lv.expert.foldlM flatStep (b ++ i) >>= fun a3 => pure a3) = .ok qs := h2
          rw [tierFlat_shift lv.expert (b ++ i)] at h3
          cases he : tierFlat lv.expert with
          | error e =>
              rw [he] at h3
              exact Except.noConfusion (h3 : (Except.error e : Except PyErr (List Str)) = .ok qs)
          | ok e =>
              rw [he] at h3
              have h4 : (Except.ok (b ++ i ++ e) : Except PyErr (List Str)) = .ok qs := h3
              injection h4 with h5
              exact ⟨b, i, e, rfl, rfl, rfl, h5.symm⟩

/-- Inversion of a successful `run`: the validation passed, generation and
flattening succeeded, the response echoes them, and the trace records
exactly one save call. -/
theorem run_ok_inv (env : Env) (save : Str → Str → List Str → Levels → SaveRecord)
    (jt jd : Str) (r : RunResult) (tr : Trace)
    (h : run env save jt jd = (.ok r, tr)) :
    ∃ lv src mc qs,
      generateQaT env = (.ok (lv, src), mc) ∧ flatQs lv = .ok qs ∧
      r = { id := (save (pyStrip jt) (pyStrip jd) qs lv).id,
            jobTitle := pyStrip jt, jobDescription := pyStrip jd,
            questions := qs,
            qa := (match (save (pyStrip jt) (pyStrip jd) qs lv).qa with
                   | some q => q
                   | none => lv),
            createdAt := (save (pyStrip jt) (pyStrip jd) qs lv).createdAt,
            source := src } ∧
      tr = ⟨mc, [⟨pyStrip jt, pyStrip jd, qs, lv⟩]⟩ := by
  unfold run at h
  by_cases hv : ((pyStrip jt).isEmpty || (pyStrip jd).isEmpty) = true
  · rw [if_pos hv] at h
    exact absurd (congrArg Prod.fst h) (by simp)
  · rw [if_neg hv] at h
    rcases hg : generateQaT env with ⟨a, mc⟩
    rw [hg] at h
    cases a with
    | error e =>
        exact absurd (congrArg Prod.fst h) (by simp)
    | ok p =>
        rcases p with ⟨lv, src⟩
        dsimp only at h
        cases hf : flatQs lv with
        | error e =>
            rw [hf] at h
            exact absurd (congrArg Prod.fst h) (by simp)
        | ok qs =>
            rw [hf] at h
            refine ⟨lv, src, mc, qs, rfl, hf, ?_, ?_⟩
            · have := congrArg Prod.fst h
              simp only at this
              injection this with h2
              exact h2.symm
            · exact (congrArg Prod.snd h).symm

/-- C9: a successful `run` produces the flattened question sequence by
iterating the tiers in the fixed order basic, intermediate, expert, and
flattening respects concatenation within a tier, so the array order of the
pairs is preserved. -/
theorem c9 (env : Env) (save : Str → Str → List Str → Levels → SaveRecord)
    (jt jd : Str) (r : RunResult) (tr : Trace)
    (h : run env save jt jd = (.ok r, tr)) :
    (∃ lv src b i e, generateQa env = .ok (lv, src) ∧
      tierFlat lv.basic = .ok b ∧ tierFlat lv.intermediate = .ok i ∧
      tierFlat lv.expert = .ok e ∧ r.questions = b ++ i ++ e) ∧
    (∀ xs ys : List Json, ∀ a b, tierFlat xs = .ok a → tierFlat ys = .ok b →
      tierFlat (xs ++ ys) = .ok (a ++ b)) := by
  constructor
  · obtain ⟨lv, src, mc, qs, hg, hf, hr, htr⟩ := run_ok_inv env save jt jd r tr h
    obtain ⟨b, i, e, hb, hi, he, hq⟩ := flatQs_decomp lv qs hf
    exact ⟨lv, src, b, i, e, by rw [generateQa, hg], hb, hi, he, by rw [hr]; exact hq⟩
  · intro xs ys a b ha hb
    rw [tierFlat, List.foldlM_append]
    rw [show xs.foldlM flatStep [] = tierFlat xs from rfl, ha]
    have h2 : (Except.ok a >>= fun m => ys.foldlM flatStep m : Except PyErr (List Str))
        = ys.foldlM flatStep a := rfl
    rw [h2, tierFlat_shift ys a, hb]
    rfl

/-- C10: in a successful `run`, every pair whose question strips to the
empty string contributes nothing to the flattened questions while the
non-blank ones contribute their stripped question, the full structure
(blank-question pairs included) is handed to the save callback, and the
response echoes the stored structure. -/
theorem c10 (env : Env) (save : Str → Str → List Str → Levels → SaveRecord)
    (jt jd : Str) (r : RunResult) (tr : Trace)
    (h : run env save jt jd = (.ok r, tr)) :
    (∃ lv src, generateQa env = .ok (lv, src) ∧
      r.questions = flattenSpec lv.basic ++ flattenSpec lv.intermediate ++ flattenSpec lv.expert ∧
      tr.saveCalls = [⟨pyStrip jt, pyStrip jd, r.questions, lv⟩] ∧
      ((save (pyStrip jt) (pyStrip jd) r.questions lv).qa = some lv → r.qa = lv)) ∧
    (∀ fields s, questionValue fields = Json.str s → (pyStrip s).isEmpty = true →
      qContrib (Json.obj fields) = []) ∧
    (∀ fields s, questionValue fields = Json.str s → (pyStrip s).isEmpty = false →
      qContrib (Json.obj fields) = [pyStrip s]) ∧
    (∀ x xs ys, qContrib x = [] → flattenSpec (xs ++ x :: ys) = flattenSpec (xs ++ ys)) := by
  refine ⟨?_, ?_, ?_, ?_⟩
  · obtain ⟨lv, src, mc, qs, hg, hf, hr, htr⟩ := run_ok_inv env save jt jd r tr h
    obtain ⟨b, i, e, hb, hi, he, hq⟩ := flatQs_decomp lv qs hf
    have hbb := tierFlat_ok_eq lv.basic b hb
    have hib := tierFlat_ok_eq lv.intermediate i hi
    have heb := tierFlat_ok_eq lv.expert e he
    have hques : r.questions = qs := by rw [hr]
    refine ⟨lv, src, by rw [generateQa, hg], ?_, ?_, ?_⟩
    · rw [hques, hq, hbb, hib, heb]
    · rw [htr, hques]
    · intro hecho
      rw [hques] at hecho
      rw [hr]
      show (match (save (pyStrip jt) (pyStrip jd) qs lv).qa with
            | some q => q
            | none => lv) = lv
      rw [hecho]
  · intro fields s hq hempty
    simp [qContrib, hq, hempty]
  · intro fields s hq hempty
    simp [qContrib, hq, hempty]
  · intro x xs ys hx
    simp [flattenSpec, List.foldr_append, hx]

/-- An environment whose model call succeeds with the leveled text. -/
def exEnvGood : Env := ⟨some "k", .ok [exText]⟩

/-- The parsed fields of the well-formed basic pair of `exText`. -/
def exFieldsQ1 : List (Str × Json) :=
  [(keyQuestion, Json.str (("Q1").data)), (keyAnswer, Json.str (("A1").data))]

/-- The well-formed basic pair of `exText`. -/
def exPairQ1 : Json := Json.obj exFieldsQ1

/-- The parsed fields of the blank-question expert pair of `exText`. -/
def exFieldsBlank : List (Str × Json) :=
  [(keyQuestion, Json.str [' ']), (keyAnswer, Json.str (("A2").data))]

/-- The blank-question expert pair of `exText`. -/
def exPairBlank : Json := Json.obj exFieldsBlank

/-- The levels `exText` normalizes to. -/
def exLv : Levels := ⟨[exPairQ1], [], [exPairBlank]⟩

/-- The response of the concrete successful run. -/
def exRun : RunResult :=
  { id := 7, jobTitle := ("Backend Engineer").data, jobDescription := ("APIs").data,
    questions := [("Q1").data], qa := exLv,
    createdAt := some "2026-01-01T00:00:00Z", source := "gemini" }

/-- The trace of the concrete successful run. -/
def exTrace : Trace :=
  ⟨1, [⟨("Backend Engineer").data, ("APIs").data, [("Q1").data], exLv⟩]⟩

/-- Witness for C9, on the concrete successful run. -/
theorem c9_witness :
    generateQa exEnvGood = .ok (exLv, "gemini") ∧
    tierFlat exLv.basic = .ok [("Q1").data] ∧
    tierFlat exLv.intermediate = .ok [] ∧
    tierFlat exLv.expert = .ok [] ∧
    exRun.questions = [("Q1").data] ++ [] ++ [] ∧
    tierFlat ([exPairQ1] ++ [exPairBlank]) = .ok ([("Q1").data] ++ []) := by
  have h := c9 exEnvGood exSave (("Backend Engineer").data) (("APIs").data) exRun exTrace rfl
  exact ⟨rfl, rfl, rfl, rfl, rfl,
    h.2 [exPairQ1] [exPairBlank] [("Q1").data] [] rfl rfl⟩

/-- Witness for C10, on the concrete successful run: the blank-question
pair is excluded from the questions yet saved in the structure. -/
theorem c10_witness :
    generateQa exEnvGood = .ok (exLv, "gemini") ∧
    exRun.questions =
      flattenSpec exLv.basic ++ flattenSpec exLv.intermediate ++ flattenSpec exLv.expert ∧
    exTrace.saveCalls =
      [⟨("Backend Engineer").data, ("APIs").data, exRun.questions, exLv⟩] ∧
    qContrib exPairBlank = [] ∧
    qContrib exPairQ1 = [("Q1").data] ∧
    flattenSpec ([exPairQ1] ++ exPairBlank :: []) = flattenSpec ([exPairQ1] ++ []) := by
  have h := c10 exEnvGood exSave (("Backend Engineer").data) (("APIs").data) exRun exTrace rfl
  exact ⟨rfl, rfl, rfl,
    h.2.1 exFieldsBlank [' '] rfl rfl,
    h.2.2.1 exFieldsQ1 (("Q1").data) rfl rfl,
    h.2.2.2 exPairBlank [exPairQ1] [] (h.2.1 exFieldsBlank [' '] rfl rfl)⟩
